import Mathlib

/-!
Verification development for the VineTracker addon (order query engine,
monthly breakdown, point mutations, and the v1→v2 schema migrator).

Modelling conventions:
* SQL TEXT timestamps (ISO-8601 strings produced by `Date.prototype.toISOString`)
  are modelled by the `DateTime` structure below; for four-digit years the
  byte-wise comparison SQLite performs on such strings coincides with the
  lexicographic comparison `DateTime.le` on the component tuple.  The process
  time zone is taken to be UTC, so local time and the ISO string agree.
* SQL REAL values (`etv`, `etvFactor`) are modelled by `ℚ`.
* Nullable SQL columns are modelled by `Option`.
* A fallible computation (a thrown JS exception or an SQL error) is modelled
  by `Except String`.
-/

/-- A calendar timestamp `(year, month, day, hour, minute, second, ms)`,
the model of an ISO-8601 string stored in a TEXT column.  `month` and `day`
are 1-based (the JS `getMonth()` 0-based index is bridged at use sites). -/
structure DateTime where
  year : Nat
  month : Nat
  day : Nat
  hour : Nat
  minute : Nat
  second : Nat
  ms : Nat
deriving DecidableEq, Repr

/-- Lexicographic comparison of timestamps; for four-digit years this is the
ordering SQLite's byte-wise TEXT comparison induces on ISO strings. -/
def DateTime.le (a b : DateTime) : Bool :=
  decide (a.year < b.year) || (a.year == b.year &&
  (decide (a.month < b.month) || (a.month == b.month &&
  (decide (a.day < b.day) || (a.day == b.day &&
  (decide (a.hour < b.hour) || (a.hour == b.hour &&
  (decide (a.minute < b.minute) || (a.minute == b.minute &&
  (decide (a.second < b.second) || (a.second == b.second &&
  decide (a.ms ≤ b.ms))))))))))))

/-- Time-of-day components are within their calendar ranges (always true of
timestamps produced by `toISOString`). -/
def DateTime.validTime (a : DateTime) : Prop :=
  a.hour ≤ 23 ∧ a.minute ≤ 59 ∧ a.second ≤ 59 ∧ a.ms ≤ 999

instance (a : DateTime) : Decidable a.validTime := by
  unfold DateTime.validTime; infer_instance

/-- `validTime` lifted to a nullable column. -/
def optValidTime : Option DateTime → Prop
  | none => True
  | some dt => dt.validTime

instance : (o : Option DateTime) → Decidable (optValidTime o)
  | none => .isTrue trivial
  | some dt => inferInstanceAs (Decidable dt.validTime)

/-- The Unix epoch, the value of the JS expression `new Date(null)`. -/
def epochDateTime : DateTime := ⟨1970, 1, 1, 0, 0, 0, 0⟩

/-- Gregorian leap-year test (as in the proleptic calendar used by JS dates). -/
def isLeapYear (y : Int) : Bool :=
  y % 4 == 0 && (y % 100 != 0 || y % 400 == 0)

/-- Number of days in a month of a given year. -/
def daysInMonth (y : Int) (m : Int) : Int :=
  if m == 2 then (if isLeapYear y then 29 else 28)
  else if m == 4 || m == 6 || m == 9 || m == 11 then 30
  else 31

/-- Days since 1970-01-01 of a civil date (Howard Hinnant's `days_from_civil`;
this is the day arithmetic the JS `Date` specification's `MakeDay` performs). -/
def daysFromCivil (y m d : Int) : Int :=
  let y' := y - (if m <= 2 then 1 else 0)
  let era := (if 0 ≤ y' then y' else y' - 399).fdiv 400
  let yoe := y' - era * 400
  let mp := (m + 9) % 12
  let doy := (153 * mp + 2).fdiv 5 + d - 1
  let doe := yoe * 365 + yoe.fdiv 4 - yoe.fdiv 100 + doy
  era * 146097 + doe - 719468

/-- Civil date from days since 1970-01-01 (Hinnant's `civil_from_days`). -/
def civilFromDays (z : Int) : Int × Int × Int :=
  let z' := z + 719468
  let era := (if 0 ≤ z' then z' else z' - 146096).fdiv 146097
  let doe := z' - era * 146097
  let yoe := (doe - doe.fdiv 1460 + doe.fdiv 36524 - doe.fdiv 146096).fdiv 365
  let y := yoe + era * 400
  let doy := doe - (365 * yoe + yoe.fdiv 4 - yoe.fdiv 100)
  let mp := (5 * doy + 2).fdiv 153
  let d := doy - (153 * mp + 2).fdiv 5 + 1
  let m := if mp < 10 then mp + 3 else mp - 9
  (y + (if m <= 2 then 1 else 0), m, d)

/-- Day-of-month normalization of the JS `Date` setters: a day outside the
month's range overflows into adjacent months.  A calendar-valid day is left
unchanged (first branch); the overflow branch routes through the civil-day
arithmetic and clamps the (non-negative in all reachable uses) result. -/
def normalizeDay (y m d : Nat) : Nat × Nat × Nat :=
  if 1 ≤ d ∧ (d : Int) ≤ daysInMonth y m then (y, m, d)
  else
    let (ny, nm, nd) := civilFromDays (daysFromCivil y m 1 + ((d : Int) - 1))
    (ny.toNat, nm.toNat, nd.toNat)

/-- The JS `dt.setFullYear(y, monthIndex, d)` year/month/day computation
(`MakeDay`): the 0-based month index is folded into the year, then the day is
normalized. -/
def jsSetFullYear (y mIdx d : Nat) : Nat × Nat × Nat :=
  normalizeDay (y + mIdx / 12) (mIdx % 12 + 1) d

/-- One stored SQL row's columns shared by the pre- and post-migration
schemas: everything except the cancellation column. -/
structure RowBase where
  number : String
  asin : String
  product : String
  orderedAt : DateTime
  deliveredAt : Option DateTime
  etv : ℚ
  etvFactor : Option ℚ
  etvReason : Option String
  notes : Option String
deriving DecidableEq, Repr

/-- A row of the schema the `getOrders` under verification reads: it carries
the integer `cancelled` column (`cancelled INTEGER DEFAULT 0`). -/
structure Row extends RowBase where
  cancelled : Int
deriving DecidableEq, Repr

/-- A row of the post-migration (v2) schema: the boolean `cancelled` column is
replaced by the nullable `cancelledAt` timestamp column. -/
structure RowV2 extends RowBase where
  cancelledAt : Option DateTime
deriving DecidableEq, Repr

/-- The in-memory `Order` record built by `toOrder` (note: the source's
`toOrder` does not copy `notes`, and `deliveredAt` is always a `Date`, since
`new Date(null)` yields the epoch rather than an absent value). -/
structure Order where
  number : String
  asin : String
  product : String
  orderedAt : DateTime
  deliveredAt : DateTime
  etv : ℚ
  etvFactor : Option ℚ
  cancelled : Bool
  etvReason : Option String
deriving DecidableEq, Repr

/-- `toOrder` from the source: converts an SQL row to an `Order`.
`new Date(row.deliveredAt)` turns a NULL column into the epoch date. -/
def toOrder (r : Row) : Order :=
  { number := r.number
    asin := r.asin
    product := r.product
    orderedAt := r.orderedAt
    deliveredAt := r.deliveredAt.getD epochDateTime
    etv := r.etv
    etvFactor := r.etvFactor
    cancelled := r.cancelled == 1
    etvReason := r.etvReason }

/-- The `GetOrdersOptions` options record of `getOrders`, with the source's
defaults. -/
structure GetOrdersOptions where
  cancelled : Bool := false
  nonAdjustedOnly : Bool := false
  limit : Option Int := none
  offset : Option Int := none
  search : Option String := none
  year : Option Nat := none
  countOnly : Bool := false
  sort : Option String := none
  dir : Option String := none
  byDelivered : Bool := false
deriving DecidableEq, Repr

/-- Characters of a string, lower-cased (for the case-insensitivity of SQL
`LIKE` on ASCII). -/
def charsLower (s : String) : List Char := s.toList.map Char.toLower

/-- Is the first character list a prefix of the second. -/
def isPrefixList : List Char → List Char → Bool
  | [], _ => true
  | _ :: _, [] => false
  | a :: as, b :: bs => a == b && isPrefixList as bs

/-- Does `pat` occur as a contiguous sublist of the second argument. -/
def containsSub (pat : List Char) : List Char → Bool
  | [] => isPrefixList pat []
  | c :: t => isPrefixList pat (c :: t) || containsSub pat t

/-- SQL `col LIKE '%' || s || '%'`: case-insensitive containment of the search
string in the column value (faithful for search strings that do not themselves
contain the `LIKE` wildcard characters). -/
def likeContains (hay s : String) : Bool := containsSub (charsLower s) (charsLower hay)

/-- The keyword clause `(number LIKE :keyword OR asin LIKE :keyword OR product
LIKE :keyword)` of `getOrders`; absent keyword means the clause is not added.
The stored keyword is the raw search string (the source wraps it in `%`,
which `likeContains` accounts for). -/
def keywordOk (kw : Option String) (b : RowBase) : Bool :=
  match kw with
  | none => true
  | some s => likeContains b.number s || likeContains b.asin s || likeContains b.product s

/-- The clause `col >= :startDate` (only added when a start bound exists); an
SQL comparison against a NULL column is not satisfied. -/
def boundLoOk (sd : Option DateTime) (axis : Option DateTime) : Bool :=
  match sd with
  | none => true
  | some lo => match axis with
    | none => false
    | some dt => DateTime.le lo dt

/-- The clause `col <= :endDate` (only added when an end bound exists). -/
def boundHiOk (ed : Option DateTime) (axis : Option DateTime) : Bool :=
  match ed with
  | none => true
  | some hi => match axis with
    | none => false
    | some dt => DateTime.le dt hi

/-- The date column the bounds apply to: `deliveredAt` when `byDelivered`,
otherwise `orderedAt`. -/
def axisDate (byDelivered : Bool) (b : RowBase) : Option DateTime :=
  if byDelivered then b.deliveredAt else some b.orderedAt

/-- The `nonAdjustedOnly` clause of `getOrders`:
`etv != 0.0 AND (etvFactor IS NULL OR (etvFactor IS NOT NULL AND etvFactor !=
0.2 AND etvFactor != 1 AND etvReason IS NULL))`. -/
def nonAdjustedOk (flag : Bool) (b : RowBase) : Bool :=
  if flag then
    b.etv != 0 &&
      (b.etvFactor.isNone ||
        (b.etvFactor.isSome && b.etvFactor != some 0.2 && b.etvFactor != some 1 &&
          b.etvReason.isNone))
  else true

/-- All filter clauses of the `getOrders` WHERE except the cancellation one. -/
def baseMatches (byDelivered nonAdjustedOnly : Bool) (sd ed : Option DateTime)
    (kw : Option String) (b : RowBase) : Bool :=
  keywordOk kw b && boundLoOk sd (axisDate byDelivered b) &&
    boundHiOk ed (axisDate byDelivered b) && nonAdjustedOk nonAdjustedOnly b

/-- The full WHERE predicate of `getOrders`: `cancelled = :cancelled` (the
parameter is bound to 1 or 0) conjoined with the remaining clauses. -/
def rowMatches (opts : GetOrdersOptions) (sd ed : Option DateTime) (kw : Option String)
    (r : Row) : Bool :=
  (r.cancelled == (if opts.cancelled then 1 else 0)) &&
    baseMatches opts.byDelivered opts.nonAdjustedOnly sd ed kw r.toRowBase

/-- Modelled from the spec: the WHERE predicate of the post-migration query
engine, which is not under src/ (src/ holds only the pre-migration `getOrders`
reading the dropped `cancelled` column, plus the migrator that replaces that
column by `cancelledAt`).  Per spec §4.1, `cancelled=false` excludes rows with
`cancelledAt` present and `cancelled=true` includes only such rows; all other
clauses are the ones of the source `getOrders`. -/
def rowMatchesV2 (opts : GetOrdersOptions) (sd ed : Option DateTime) (kw : Option String)
    (r : RowV2) : Bool :=
  (r.cancelledAt.isSome == opts.cancelled) &&
    baseMatches opts.byDelivered opts.nonAdjustedOnly sd ed kw r.toRowBase

/-- The test of the source regular expression `^\d{4}-\d{2}-\d{2}$`. -/
def matchesDateRe (s : String) : Bool :=
  match s.toList with
  | [y1, y2, y3, y4, s1, m1, m2, s2, d1, d2] =>
    y1.isDigit && y2.isDigit && y3.isDigit && y4.isDigit && s1 == '-' &&
      m1.isDigit && m2.isDigit && s2 == '-' && d1.isDigit && d2.isDigit
  | _ => false

/-- Decimal value of a digit string (the effect of `parseInt(_, 10)` on the
all-digit groups produced by the date pattern). -/
def digitsToNat (cs : List Char) : Nat := cs.foldl (fun n c => n * 10 + (c.toNat - 48)) 0

/-- The JS `search.split('-')` on the character list of the search string. -/
def splitOnDash : List Char → List (List Char)
  | [] => [[]]
  | c :: t =>
    let rest := splitOnDash t
    if c == '-' then [] :: rest
    else
      match rest with
      | [] => [[c]]
      | g :: gs => (c :: g) :: gs

/-- The `year` bounds of `getOrders`: `new Date(year, 0, 1)` (with the JS
constructor quirk mapping years 0–99 to 1900–1999), then `setMonth(11, 31)`
(December 31, no overflow) and `setHours(11, 59, 59, 999)` — the hour is the
source's literal argument 11. -/
def yearStartEnd (y : Nat) : DateTime × DateTime :=
  let yy := if y ≤ 99 then y + 1900 else y
  (⟨yy, 1, 1, 0, 0, 0, 0⟩, ⟨yy, 12, 31, 11, 59, 59, 999⟩)

/-- The single-day bounds of a date-shaped `search`: `setFullYear(year,
month - 1, day)` then `setHours(0, 0, 0, 0)` for the start and
`setHours(23, 59, 59, 999)` for the end. -/
def searchDayStartEnd (y m d : Nat) : DateTime × DateTime :=
  let (ny, nm, nd) := jsSetFullYear y (m - 1) d
  (⟨ny, nm, nd, 0, 0, 0, 0⟩, ⟨ny, nm, nd, 23, 59, 59, 999⟩)

/-- The `startDate`/`endDate`/`keyword` computation at the head of
`getOrders`: a truthy `year` sets calendar-year bounds; a truthy `search`
either (if date-shaped) replaces both bounds by single-day bounds — throwing
`Invalid date` when a parsed component is zero — or else becomes the keyword. -/
def computeBounds (opts : GetOrdersOptions) :
    Except String (Option DateTime × Option DateTime × Option String) :=
  let yb : Option (DateTime × DateTime) :=
    match opts.year with
    | some y => if y ≠ 0 then some (yearStartEnd y) else none
    | none => none
  match opts.search with
  | some s =>
    if s ≠ "" then
      if matchesDateRe s then
        match (splitOnDash s.toList).map digitsToNat with
        | [y, m, d] =>
          if y == 0 || m == 0 || d == 0 then .error "Invalid date"
          else
            let (lo, hi) := searchDayStartEnd y m d
            .ok (some lo, some hi, none)
        | _ => .error "Invalid date"
      else .ok (yb.map Prod.fst, yb.map Prod.snd, some s)
    else .ok (yb.map Prod.fst, yb.map Prod.snd, none)
  | none => .ok (yb.map Prod.fst, yb.map Prod.snd, none)

/-- Ascending SQL ordering on a nullable REAL column: NULLs sort first. -/
def optRatLE (a b : Option ℚ) : Bool :=
  match a, b with
  | none, _ => true
  | some _, none => false
  | some x, some y => decide (x ≤ y)

/-- Ascending comparison for one sort column; `adjustedEtv` is the SELECT's
`etv * COALESCE(etvFactor, 0)`; any column other than the three sortable ones
means `orderedAt` (the TEXT column, compared as an ISO string). -/
def colLE (col : String) (a b : RowBase) : Bool :=
  if col == "etv" then decide (a.etv ≤ b.etv)
  else if col == "etvFactor" then optRatLE a.etvFactor b.etvFactor
  else if col == "adjustedEtv" then
    decide (a.etv * a.etvFactor.getD 0 ≤ b.etv * b.etvFactor.getD 0)
  else DateTime.le a.orderedAt b.orderedAt

/-- Insert into a sorted list (used to realize ORDER BY). -/
def insertSorted (le : α → α → Bool) (x : α) : List α → List α
  | [] => [x]
  | y :: ys => if le x y then x :: y :: ys else y :: insertSorted le x ys

/-- Sort realizing ORDER BY; which permutation ties produce is irrelevant to
every property below (the source adds no tie-break and SQLite guarantees
none). -/
def sortByLE (le : α → α → Bool) (l : List α) : List α := l.foldr (insertSorted le) []

/-- SQLite `LIMIT :limit OFFSET :offset` semantics on a result list: the
offset is applied first (a negative offset acts as zero), then a non-negative
limit truncates (a negative limit means no limit). -/
def applyLimitOffset (l : List α) (limit offset : Option Int) : List α :=
  match limit with
  | none => l
  | some lim =>
    let dropped :=
      match offset with
      | none => l
      | some off => l.drop off.toNat
    if lim < 0 then dropped else dropped.take lim.toNat

/-- The ORDER BY column: the requested one when not counting and among the
three sortable columns, else `orderedAt`. -/
def sortColOf (opts : GetOrdersOptions) : String :=
  match opts.sort with
  | some s =>
    if !opts.countOnly && (s == "etv" || s == "etvFactor" || s == "adjustedEtv") then s
    else "orderedAt"
  | none => "orderedAt"

/-- The ORDER BY direction: `ASC` when counting, else `ASC` iff `dir` is
exactly `"asc"`. -/
def sortAscOf (opts : GetOrdersOptions) : Bool := opts.countOnly || opts.dir == some "asc"

/-- Row comparison realizing `ORDER BY sortCol sortDir` (descending = flipped
ascending; SQL NULLs then sort last, as SQLite does). -/
def rowLE (opts : GetOrdersOptions) (a b : Row) : Bool :=
  if sortAscOf opts then colLE (sortColOf opts) a.toRowBase b.toRowBase
  else colLE (sortColOf opts) b.toRowBase a.toRowBase

/-- Embedding of `getOrders` (src/vinetracker/index.js, lines 808–887).
The LIMIT/OFFSET clauses are appended to the query text whether or not
`countOnly` is set, so in count mode they apply to the single `COUNT(1)` row
(`query.get` then `?? 0`); an OFFSET clause without a LIMIT clause is an
SQLite syntax error raised when the statement is prepared. -/
def getOrders (store : List Row) (opts : GetOrdersOptions) :
    Except String (List Order ⊕ Nat) :=
  match computeBounds opts with
  | .error e => .error e
  | .ok (sd, ed, kw) =>
    if opts.offset.isSome && opts.limit.isNone then
      .error "incomplete input: OFFSET without LIMIT"
    else
      let matched := store.filter (fun r => rowMatches opts sd ed kw r)
      if opts.countOnly then
        .ok (.inr ((applyLimitOffset [matched.length] opts.limit opts.offset).head?.getD 0))
      else
        .ok (.inl ((applyLimitOffset (sortByLE (rowLE opts) matched) opts.limit
          opts.offset).map toOrder))

/-- Row comparison of the post-migration engine (same sortable columns; they
all live in `RowBase`). -/
def rowLEV2 (opts : GetOrdersOptions) (a b : RowV2) : Bool :=
  if sortAscOf opts then colLE (sortColOf opts) a.toRowBase b.toRowBase
  else colLE (sortColOf opts) b.toRowBase a.toRowBase

/-- Modelled from the spec: the post-migration `getOrders` over the v2 schema,
absent from src/ (see `rowMatchesV2`).  Identical in structure to the source
`getOrders`; only the cancellation clause differs, and the result is left at
the row level (the row-to-`Order` mapping is irrelevant to the partition
property verified about it). -/
def getOrdersV2 (store : List RowV2) (opts : GetOrdersOptions) :
    Except String (List RowV2 ⊕ Nat) :=
  match computeBounds opts with
  | .error e => .error e
  | .ok (sd, ed, kw) =>
    if opts.offset.isSome && opts.limit.isNone then
      .error "incomplete input: OFFSET without LIMIT"
    else
      let matched := store.filter (fun r => rowMatchesV2 opts sd ed kw r)
      if opts.countOnly then
        .ok (.inr ((applyLimitOffset [matched.length] opts.limit opts.offset).head?.getD 0))
      else
        .ok (.inl (applyLimitOffset (sortByLE (rowLEV2 opts) matched) opts.limit opts.offset))

/-- One bucket of the monthly report. -/
structure MonthlyBreakdown where
  month : Nat
  orderCount : Nat
  totalEtv : ℚ
  totalAdjustedEtv : ℚ
deriving DecidableEq, Repr

/-- Embedding of `getMonthlyBreakdown` (src/vinetracker/index.js, lines
608–622): one bucket per month 0–11 (reported as `month + 1`), filtering on
the 0-based `getMonth()` of `orderedAt`; the adjusted total adds
`o.etvFactor !== null ? o.etv * o.etvFactor : o.etv` per order. -/
def getMonthlyBreakdown (orders : List Order) : List MonthlyBreakdown :=
  (List.range 12).map fun month =>
    let ordersForMonth := orders.filter fun o => o.orderedAt.month == month + 1
    { month := month + 1
      orderCount := ordersForMonth.length
      totalEtv := ordersForMonth.foldl (fun sum o => sum + o.etv) 0
      totalAdjustedEtv := ordersForMonth.foldl
        (fun sum o =>
          sum + (match o.etvFactor with | some f => o.etv * f | none => o.etv)) 0 }

/-- Embedding of `setETVReasonForOrder` (src/vinetracker/index.js, lines
929–935): an empty-string reason is replaced by NULL, then
`UPDATE orders SET etvReason = ? WHERE number = ?`. -/
def setETVReasonForOrder (store : List Row) (number : String) (reason : Option String) :
    List Row :=
  let r := if reason == some "" then none else reason
  store.map fun row => if row.number == number then { row with etvReason := r } else row

/-- The shapes the `orders` table takes during migration: the v1 schema, the
intermediate shape right after the `cancelled` column is dropped, and the v2
schema. -/
inductive Table
  | v1 (rows : List Row)
  | bare (rows : List RowBase)
  | v2 (rows : List RowV2)
deriving DecidableEq, Repr

/-- The database state the migrator manipulates: the persisted
`PRAGMA user_version` marker and the table. -/
structure Db where
  userVersion : Nat
  table : Table
deriving DecidableEq, Repr

/-- `ALTER TABLE orders DROP COLUMN cancelled`: succeeds only when the column
exists, preserving every other column of every row. -/
def stepDrop : Table → Except String Table
  | .v1 rows => .ok (.bare (rows.map Row.toRowBase))
  | _ => .error "no such column: cancelled"

/-- `ALTER TABLE orders ADD COLUMN cancelledAt TEXT`: every pre-existing row
reads NULL in the new column.  Inside `migrate` this statement only ever runs
directly after a successful drop, i.e. on a `bare` table; on a `v2` table the
column already exists and the statement errors (the `v1` case is unreachable
in `migrate` and its value is never relied upon). -/
def stepAdd : Table → Except String Table
  | .bare rows => .ok (.v2 (rows.map fun b => { toRowBase := b, cancelledAt := none }))
  | _ => .error "duplicate column name: cancelledAt"

/-- The value a v1 row holds after the migration: same columns, minus the
dropped `cancelled`, plus a NULL `cancelledAt`. -/
def rowV1toV2 (r : Row) : RowV2 := { toRowBase := r.toRowBase, cancelledAt := none }

/-- The body of the migration transaction — BEGIN; DROP COLUMN; ADD COLUMN;
`PRAGMA user_version = 2`; COMMIT — gated by an oracle `io` stating which step
numbers (0–4) succeed at the storage level; intrinsic schema errors also fail
their step. -/
def migrateTx (io : Nat → Bool) (db : Db) : Except String Db :=
  if io 0 then
    match (if io 1 then stepDrop db.table else .error "io failure: DROP COLUMN") with
    | .error e => .error e
    | .ok t1 =>
      match (if io 2 then stepAdd t1 else .error "io failure: ADD COLUMN") with
      | .error e => .error e
      | .ok t2 =>
        if io 3 then
          if io 4 then .ok ⟨2, t2⟩ else .error "io failure: COMMIT"
        else .error "io failure: PRAGMA"
  else .error "io failure: BEGIN"

/-- Embedding of `migrate` (src/vinetracker/migrate.js): read
`PRAGMA user_version`; when it is below the target version 2, run the
transaction; on any step's failure roll back (the database keeps its
pre-transaction state) and log the error (the returned `Option String`);
an already-current database is untouched. -/
def migrate (io : Nat → Bool) (db : Db) : Db × Option String :=
  if db.userVersion < 2 then
    match migrateTx io db with
    | .ok db2 => (db2, none)
    | .error e => (db, some e)
  else (db, none)

/-- Fixture: an ordinary not-cancelled row. -/
def rowA : Row :=
  { number := "111-1", asin := "B0A", product := "Widget"
    orderedAt := ⟨2024, 3, 5, 10, 0, 0, 0⟩
    deliveredAt := some ⟨2024, 3, 8, 12, 0, 0, 0⟩
    etv := 10, etvFactor := some 0.2, etvReason := none, notes := none
    cancelled := 0 }

/-- Fixture: a cancelled row. -/
def rowB : Row := { rowA with number := "222-2", cancelled := 1 }

/-- Fixture: a row ordered in the evening of December 31, 2024. -/
def rowDec31pm : Row := { rowA with number := "333-3", orderedAt := ⟨2024, 12, 31, 18, 0, 0, 0⟩ }

/-- Fixture: a row ordered in the morning of December 31, 2024. -/
def rowDec31am : Row := { rowA with number := "444-4", orderedAt := ⟨2024, 12, 31, 10, 0, 0, 0⟩ }

/-- Fixture: a v2 row with no cancellation timestamp. -/
def rowV2a : RowV2 := { toRowBase := rowA.toRowBase, cancelledAt := none }

/-- Fixture: a v2 row with a cancellation timestamp. -/
def rowV2b : RowV2 :=
  { toRowBase := rowB.toRowBase, cancelledAt := some ⟨2024, 4, 1, 0, 0, 0, 0⟩ }

/-- Fixture: a January order with no `etvFactor`. -/
def orderJanNoFactor : Order :=
  { number := "555-5", asin := "B0B", product := "Gadget"
    orderedAt := ⟨2024, 1, 15, 9, 0, 0, 0⟩
    deliveredAt := epochDateTime
    etv := 5, etvFactor := none, cancelled := false, etvReason := none }

/-- Fixture: a v1 database. -/
def dbV1 : Db := ⟨1, .v1 [rowA, rowB]⟩

theorem mem_insertSorted {α : Type} (le : α → α → Bool) (x a : α) (l : List α) :
    a ∈ insertSorted le x l ↔ a = x ∨ a ∈ l := by
  induction l with
  | nil => simp [insertSorted]
  | cons y ys ih =>
    by_cases h : le x y = true
    · simp [insertSorted, h]
    · simp only [insertSorted, if_neg h, List.mem_cons, ih]
      tauto

theorem length_insertSorted {α : Type} (le : α → α → Bool) (x : α) (l : List α) :
    (insertSorted le x l).length = l.length + 1 := by
  induction l with
  | nil => simp [insertSorted]
  | cons y ys ih =>
    by_cases h : le x y = true
    · simp [insertSorted, h]
    · simp [insertSorted, h, ih]

theorem mem_sortByLE {α : Type} (le : α → α → Bool) (a : α) (l : List α) :
    a ∈ sortByLE le l ↔ a ∈ l := by
  induction l with
  | nil => simp [sortByLE]
  | cons y ys ih =>
    simp only [sortByLE, List.foldr_cons, mem_insertSorted, List.mem_cons]
    rw [show List.foldr (insertSorted le) [] ys = sortByLE le ys from rfl] at *
    rw [ih]

theorem length_sortByLE {α : Type} (le : α → α → Bool) (l : List α) :
    (sortByLE le l).length = l.length := by
  induction l with
  | nil => rfl
  | cons y ys ih =>
    simp only [sortByLE, List.foldr_cons, length_insertSorted, List.length_cons]
    rw [show List.foldr (insertSorted le) [] ys = sortByLE le ys from rfl, ih]

theorem mem_applyLimitOffset {α : Type} (l : List α) (limit offset : Option Int) (a : α)
    (h : a ∈ applyLimitOffset l limit offset) : a ∈ l := by
  unfold applyLimitOffset at h
  cases limit with
  | none => exact h
  | some lim =>
    cases offset with
    | none =>
      by_cases hl : lim < 0
      · simpa [hl] using h
      · simp only [if_neg hl] at h
        exact List.take_subset _ _ h
    | some off =>
      by_cases hl : lim < 0
      · simp only [if_pos hl] at h
        exact List.drop_subset _ _ h
      · simp only [if_neg hl] at h
        exact List.drop_subset _ _ (List.take_subset _ _ h)

theorem foldl_add_map {α : Type} (f : α → ℚ) (l : List α) (init : ℚ) :
    l.foldl (fun s o => s + f o) init = init + (l.map f).sum := by
  induction l generalizing init with
  | nil => simp
  | cons x t ih => simp [ih, add_assoc]

theorem day_bounds_iff (y m d : Nat) (dt : DateTime) (h : dt.validTime) :
    (DateTime.le ⟨y, m, d, 0, 0, 0, 0⟩ dt = true ∧ DateTime.le dt ⟨y, m, d, 23, 59, 59, 999⟩ = true) ↔
      dt.year = y ∧ dt.month = m ∧ dt.day = d := by
  obtain ⟨h1, h2, h3, h4⟩ := h
  simp only [DateTime.le, Bool.and_eq_true, Bool.or_eq_true, beq_iff_eq, decide_eq_true_eq]
  omega

theorem jsSetFullYear_valid (y m d : Nat) (hm1 : 1 ≤ m) (hm2 : m ≤ 12)
    (hd1 : 1 ≤ d) (hd2 : (d : Int) ≤ daysInMonth y m) :
    jsSetFullYear y (m - 1) d = (y, m, d) := by
  unfold jsSetFullYear
  have hlt : m - 1 < 12 := by omega
  rw [Nat.div_eq_of_lt hlt, Nat.mod_eq_of_lt hlt]
  have hm : m - 1 + 1 = m := by omega
  rw [Nat.add_zero, hm]
  unfold normalizeDay
  rw [if_pos ⟨hd1, hd2⟩]

theorem matchesDateRe_ne_empty (s : String) (h : matchesDateRe s = true) : s ≠ "" := by
  intro he
  subst he
  simp [matchesDateRe, String.toList] at h

theorem computeBounds_searchDate (opts : GetOrdersOptions) (s : String) (y m d : Nat)
    (hs : opts.search = some s) (hre : matchesDateRe s = true)
    (hparts : (splitOnDash s.toList).map digitsToNat = [y, m, d])
    (hy : y ≠ 0) (hm : m ≠ 0) (hd : d ≠ 0) :
    computeBounds opts =
      .ok (some (searchDayStartEnd y m d).1, some (searchDayStartEnd y m d).2, none) := by
  have hne := matchesDateRe_ne_empty s hre
  have hzero : (y == 0 || m == 0 || d == 0) = false := by
    simp [hy, hm, hd]
  unfold computeBounds
  rw [hs]
  simp only [if_pos hne, hre, if_pos rfl, hparts, hzero]
  rfl

theorem computeBounds_year_irrelevant_of_searchDate (opts : GetOrdersOptions) (s : String)
    (hs : opts.search = some s) (hre : matchesDateRe s = true) (y' : Option Nat) :
    computeBounds { opts with year := y' } = computeBounds opts := by
  have hne := matchesDateRe_ne_empty s hre
  unfold computeBounds
  simp [hs, hne, hre]

theorem getOrders_rows_eq (store : List Row) (opts : GetOrdersOptions)
    (sd ed : Option DateTime) (kw : Option String)
    (hb : computeBounds opts = .ok (sd, ed, kw))
    (hl : opts.limit = none) (ho : opts.offset = none) (hc : opts.countOnly = false) :
    getOrders store opts =
      .ok (.inl ((sortByLE (rowLE opts)
        (store.filter (fun r => rowMatches opts sd ed kw r))).map toOrder)) := by
  unfold getOrders
  rw [hb]
  simp [hl, ho, hc, applyLimitOffset]

theorem getOrders_count_eq (store : List Row) (opts : GetOrdersOptions)
    (sd ed : Option DateTime) (kw : Option String)
    (hb : computeBounds opts = .ok (sd, ed, kw))
    (hl : opts.limit = none) (ho : opts.offset = none) (hc : opts.countOnly = true) :
    getOrders store opts =
      .ok (.inr (store.filter (fun r => rowMatches opts sd ed kw r)).length) := by
  unfold getOrders
  rw [hb]
  simp [hl, ho, hc, applyLimitOffset]

theorem axisDate_validTime (byDelivered : Bool) (b : RowBase) (dt : DateTime)
    (hv1 : b.orderedAt.validTime) (hv2 : optValidTime b.deliveredAt)
    (h : axisDate byDelivered b = some dt) : dt.validTime := by
  unfold axisDate at h
  by_cases hbd : byDelivered = true
  · rw [if_pos hbd] at h
    rw [h] at hv2
    exact hv2
  · rw [if_neg hbd] at h
    injection h with h'
    rw [← h']
    exact hv1

theorem rowMatches_day_split (opts : GetOrdersOptions) (y m d : Nat) (r : Row)
    (hv1 : r.orderedAt.validTime) (hv2 : optValidTime r.deliveredAt) :
    rowMatches opts (some ⟨y, m, d, 0, 0, 0, 0⟩) (some ⟨y, m, d, 23, 59, 59, 999⟩) none r = true ↔
      (rowMatches opts none none none r = true ∧
        ∃ dt, axisDate opts.byDelivered r.toRowBase = some dt ∧
          dt.year = y ∧ dt.month = m ∧ dt.day = d) := by
  cases haxis : axisDate opts.byDelivered r.toRowBase with
  | none =>
    simp [rowMatches, baseMatches, boundLoOk, boundHiOk, keywordOk, haxis]
  | some dt =>
    have hdt : dt.validTime := axisDate_validTime _ _ dt hv1 hv2 haxis
    simp only [rowMatches, baseMatches, boundLoOk, boundHiOk, keywordOk, haxis,
      Bool.and_eq_true, Option.some.injEq]
    constructor
    · rintro ⟨hcan, ⟨⟨-, hlo⟩, hhi⟩, hna⟩
      have hday := (day_bounds_iff y m d dt hdt).mp ⟨hlo, hhi⟩
      exact ⟨⟨hcan, ⟨⟨trivial, trivial⟩, trivial⟩, hna⟩, dt, rfl, hday⟩
    · rintro ⟨⟨hcan, -, hna⟩, dt', rfl, hy', hm', hd'⟩
      have hb := (day_bounds_iff y m d dt hdt).mpr ⟨hy', hm', hd'⟩
      exact ⟨hcan, ⟨⟨trivial, hb.1⟩, hb.2⟩, hna⟩

theorem countOnly_agrees (store : List Row) (opts : GetOrdersOptions) (s d : Option String)
    (n : Nat) (l : List Order)
    (hl : opts.limit = none) (ho : opts.offset = none)
    (hn : getOrders store { opts with countOnly := true, sort := s, dir := d } = .ok (.inr n))
    (hr : getOrders store { opts with countOnly := false, sort := none, dir := none } =
      .ok (.inl l)) :
    n = l.length := by
  cases hb : computeBounds opts with
  | error e =>
    have hb1 : computeBounds { opts with countOnly := true, sort := s, dir := d } = .error e :=
      hb
    unfold getOrders at hn
    rw [hb1] at hn
    exact absurd hn (by simp)
  | ok trip =>
    obtain ⟨sd, ed, kw⟩ := trip
    have h1 := getOrders_count_eq store { opts with countOnly := true, sort := s, dir := d }
      sd ed kw hb hl ho rfl
    have h2 := getOrders_rows_eq store { opts with countOnly := false, sort := none, dir := none }
      sd ed kw hb hl ho rfl
    rw [hn] at h1
    rw [hr] at h2
    have e1 : n = (store.filter (fun r =>
        rowMatches { opts with countOnly := true, sort := s, dir := d } sd ed kw r)).length := by
      simpa using h1
    have e2 : l = (sortByLE (rowLE { opts with countOnly := false, sort := none, dir := none })
        (store.filter (fun r =>
          rowMatches { opts with countOnly := false, sort := none, dir := none } sd ed kw r))).map
        toOrder := by
      simpa using h2
    rw [e1, e2, List.length_map, length_sortByLE]
    rfl

theorem getOrdersV2_rows_eq (store : List RowV2) (opts : GetOrdersOptions)
    (sd ed : Option DateTime) (kw : Option String)
    (hb : computeBounds opts = .ok (sd, ed, kw))
    (hl : opts.limit = none) (ho : opts.offset = none) (hc : opts.countOnly = false) :
    getOrdersV2 store opts =
      .ok (.inl (sortByLE (rowLEV2 opts)
        (store.filter (fun r => rowMatchesV2 opts sd ed kw r)))) := by
  unfold getOrdersV2
  rw [hb]
  simp [hl, ho, hc, applyLimitOffset]

theorem getOrders_rows_shape (store : List Row) (opts : GetOrdersOptions)
    (sd ed : Option DateTime) (kw : Option String) (l : List Order)
    (hb : computeBounds opts = .ok (sd, ed, kw))
    (h : getOrders store opts = .ok (.inl l)) :
    l = (applyLimitOffset (sortByLE (rowLE opts)
      (store.filter fun r => rowMatches opts sd ed kw r)) opts.limit opts.offset).map toOrder := by
  unfold getOrders at h
  rw [hb] at h
  by_cases hcond : (opts.offset.isSome && opts.limit.isNone) = true
  · simp [hcond] at h
  · by_cases hco : opts.countOnly = true
    · simp [hcond, hco] at h
    · simp [hcond, hco] at h
      exact h.symm

theorem cancelV2_false_iff (r : RowV2) :
    ((r.cancelledAt.isSome == false) = true) ↔ r.cancelledAt = none := by
  cases h : r.cancelledAt <;> simp [h]

theorem cancelV2_true_iff (r : RowV2) :
    ((r.cancelledAt.isSome == true) = true) ↔ r.cancelledAt ≠ none := by
  cases h : r.cancelledAt <;> simp [h]

/-- C1: with all remaining options fixed (and no pagination, so the full
result set is returned), the post-migration engine with `cancelled=false`
returns exactly the otherwise-matching rows whose `cancelledAt` is absent,
with `cancelled=true` exactly those whose `cancelledAt` is present, and no
row is in both result sets. -/
theorem claim_c1_cancelled_partition (store : List RowV2) (opts : GetOrdersOptions)
    (sd ed : Option DateTime) (kw : Option String) (lf lt : List RowV2)
    (hb : computeBounds opts = .ok (sd, ed, kw))
    (hl : opts.limit = none) (ho : opts.offset = none) (hc : opts.countOnly = false)
    (hf : getOrdersV2 store { opts with cancelled := false } = .ok (.inl lf))
    (ht : getOrdersV2 store { opts with cancelled := true } = .ok (.inl lt)) :
    (∀ r, r ∈ lf ↔ r ∈ store ∧
      baseMatches opts.byDelivered opts.nonAdjustedOnly sd ed kw r.toRowBase = true ∧
      r.cancelledAt = none) ∧
    (∀ r, r ∈ lt ↔ r ∈ store ∧
      baseMatches opts.byDelivered opts.nonAdjustedOnly sd ed kw r.toRowBase = true ∧
      r.cancelledAt ≠ none) ∧
    (∀ r : RowV2, ¬(r ∈ lf ∧ r ∈ lt)) := by
  have h1 := getOrdersV2_rows_eq store { opts with cancelled := false } sd ed kw hb hl ho hc
  have h2 := getOrdersV2_rows_eq store { opts with cancelled := true } sd ed kw hb hl ho hc
  rw [hf] at h1
  rw [ht] at h2
  have hlf : lf = sortByLE (rowLEV2 { opts with cancelled := false })
      (store.filter fun r => rowMatchesV2 { opts with cancelled := false } sd ed kw r) := by
    simpa using h1
  have hlt : lt = sortByLE (rowLEV2 { opts with cancelled := true })
      (store.filter fun r => rowMatchesV2 { opts with cancelled := true } sd ed kw r) := by
    simpa using h2
  have memf : ∀ r, r ∈ lf ↔ r ∈ store ∧
      baseMatches opts.byDelivered opts.nonAdjustedOnly sd ed kw r.toRowBase = true ∧
      r.cancelledAt = none := by
    intro r
    rw [hlf, mem_sortByLE, List.mem_filter]
    unfold rowMatchesV2
    rw [Bool.and_eq_true, cancelV2_false_iff]
    tauto
  have memt : ∀ r, r ∈ lt ↔ r ∈ store ∧
      baseMatches opts.byDelivered opts.nonAdjustedOnly sd ed kw r.toRowBase = true ∧
      r.cancelledAt ≠ none := by
    intro r
    rw [hlt, mem_sortByLE, List.mem_filter]
    unfold rowMatchesV2
    rw [Bool.and_eq_true, cancelV2_true_iff]
    tauto
  refine ⟨memf, memt, ?_⟩
  rintro r ⟨hrf, hrt⟩
  exact absurd ((memf r).mp hrf).2.2 (by simpa using ((memt r).mp hrt).2.2)

/-- C2: with sort, dir, limit and offset unset, the integer `getOrders`
returns in count mode equals the length of the row list it returns in row
mode with the same remaining options. -/
theorem claim_c2_count_eq_rows (store : List Row) (opts : GetOrdersOptions)
    (n : Nat) (l : List Order)
    (hsort : opts.sort = none) (hdir : opts.dir = none)
    (hl : opts.limit = none) (ho : opts.offset = none)
    (hn : getOrders store { opts with countOnly := true } = .ok (.inr n))
    (hr : getOrders store { opts with countOnly := false } = .ok (.inl l)) :
    n = l.length := by
  rw [hsort, hdir] at hr
  exact countOnly_agrees store opts opts.sort opts.dir n l hl ho hn hr

/-- C3: the claim states the year filter includes the whole calendar year,
in particular any time of day on December 31; the code's upper bound is
December 31 at 11:59:59.999 (the source's `setHours(11, 59, 59, 999)` — the
parallel single-day search branch uses 23), so a row ordered in the evening
of December 31, 2024 is excluded from `year = 2024` while a morning row is
kept.  This theorem evaluates the code at that failing input. -/
theorem claim_c3_year_bound_eval :
    getOrders [rowDec31pm, rowDec31am] { year := some 2024 } =
      .ok (.inl [toOrder rowDec31am]) := rfl

/-- C4 counterexample: with one matching stored row, `countOnly=true`
together with a positive offset (and a limit, so the statement even
prepares) returns 0, while the same call without pagination returns 1 — the
offset does change the returned count, contradicting the claim. -/
theorem claim_c4_counterexample :
    getOrders [rowA] { countOnly := true, limit := some 5, offset := some 1 } =
      .ok (.inr 0) ∧
    getOrders [rowA] { countOnly := true } = .ok (.inr 1) := ⟨rfl, rfl⟩

/-- C4 (amended): in count mode the result ignores `sort` and `dir` and — when
`limit` and `offset` are unset — equals the number of matching rows (the
length of the row-mode result); but the LIMIT/OFFSET clauses still apply to
the single COUNT row, so a positive offset makes the returned count 0. -/
theorem claim_c4_amended (store : List Row) (opts : GetOrdersOptions) :
    (∀ s d n l, opts.limit = none → opts.offset = none →
      getOrders store { opts with countOnly := true, sort := s, dir := d } = .ok (.inr n) →
      getOrders store { opts with countOnly := false, sort := none, dir := none } =
        .ok (.inl l) →
      n = l.length) ∧
    (∀ k n, opts.offset = some k → 1 ≤ k →
      getOrders store { opts with countOnly := true } = .ok (.inr n) → n = 0) := by
  constructor
  · intro s d n l hl ho hn hr
    exact countOnly_agrees store opts s d n l hl ho hn hr
  · intro k n hoff hk hn
    cases hb : computeBounds opts with
    | error e =>
      have hb1 : computeBounds { opts with countOnly := true } = .error e := hb
      unfold getOrders at hn
      rw [hb1] at hn
      exact absurd hn (by simp)
    | ok trip =>
      obtain ⟨sd, ed, kw⟩ := trip
      have hb1 : computeBounds { opts with countOnly := true } = .ok (sd, ed, kw) := hb
      unfold getOrders at hn
      rw [hb1] at hn
      cases hlim : opts.limit with
      | none =>
        simp [hoff, hlim] at hn
      | some lim =>
        have hdrop : ∀ x : Nat, [x].drop k.toNat = [] := by
          intro x
          apply List.drop_eq_nil_of_le
          simp
          omega
        simp only [hoff, hlim, Option.isSome_some, Option.isNone_some, Bool.and_false,
          Bool.false_eq_true, if_false, if_true, applyLimitOffset, hdrop] at hn
        by_cases hneg : lim < 0
        · simp [hneg, hdrop] at hn
          omega
        · simp [hneg, hdrop] at hn
          omega

/-- C5: when `search` matches `YYYY-MM-DD` (denoting a calendar-valid date),
`getOrders` is unchanged by any simultaneously supplied `year` (the single-day
bound replaces the year bound entirely), and — without pagination — the row
result contains exactly the rows that satisfy the other filters and whose
date on the axis selected by `byDelivered` falls on that day (local time
00:00:00.000 through 23:59:59.999). -/
theorem claim_c5_search_day (store : List Row) (opts : GetOrdersOptions)
    (s : String) (y m d : Nat) (l : List Order)
    (hs : opts.search = some s) (hre : matchesDateRe s = true)
    (hparts : (splitOnDash s.toList).map digitsToNat = [y, m, d])
    (hy : y ≠ 0) (hm1 : 1 ≤ m) (hm2 : m ≤ 12)
    (hd1 : 1 ≤ d) (hd2 : (d : Int) ≤ daysInMonth y m)
    (hvalid : ∀ r ∈ store, r.orderedAt.validTime ∧ optValidTime r.deliveredAt)
    (hl : opts.limit = none) (ho : opts.offset = none) (hc : opts.countOnly = false)
    (hres : getOrders store opts = .ok (.inl l)) :
    (∀ y', getOrders store { opts with year := y' } = getOrders store opts) ∧
    (∀ o, o ∈ l ↔ ∃ r, r ∈ store ∧ rowMatches opts none none none r = true ∧
      (∃ dt, axisDate opts.byDelivered r.toRowBase = some dt ∧
        dt.year = y ∧ dt.month = m ∧ dt.day = d) ∧
      o = toOrder r) := by
  have hm0 : m ≠ 0 := by omega
  have hd0 : d ≠ 0 := by omega
  have hb := computeBounds_searchDate opts s y m d hs hre hparts hy hm0 hd0
  have hse : searchDayStartEnd y m d =
      (⟨y, m, d, 0, 0, 0, 0⟩, ⟨y, m, d, 23, 59, 59, 999⟩) := by
    unfold searchDayStartEnd
    rw [jsSetFullYear_valid y m d hm1 hm2 hd1 hd2]
  rw [hse] at hb
  constructor
  · intro y'
    unfold getOrders
    rw [computeBounds_year_irrelevant_of_searchDate opts s hs hre y', hb]
    rfl
  · have heq := getOrders_rows_eq store opts (some ⟨y, m, d, 0, 0, 0, 0⟩)
      (some ⟨y, m, d, 23, 59, 59, 999⟩) none hb hl ho hc
    rw [hres] at heq
    have hleq : l = (sortByLE (rowLE opts) (store.filter fun r =>
        rowMatches opts (some ⟨y, m, d, 0, 0, 0, 0⟩)
          (some ⟨y, m, d, 23, 59, 59, 999⟩) none r)).map toOrder := by
      simpa using heq
    intro o
    rw [hleq, List.mem_map]
    constructor
    · rintro ⟨r, hr, rfl⟩
      rw [mem_sortByLE, List.mem_filter] at hr
      obtain ⟨hrs, hrm⟩ := hr
      obtain ⟨hrm', dt, hax, hday⟩ :=
        (rowMatches_day_split opts y m d r (hvalid r hrs).1 (hvalid r hrs).2).mp hrm
      exact ⟨r, hrs, hrm', ⟨dt, hax, hday⟩, rfl⟩
    · rintro ⟨r, hrs, hrm', hex, rfl⟩
      refine ⟨r, ?_, rfl⟩
      rw [mem_sortByLE, List.mem_filter]
      exact ⟨hrs,
        (rowMatches_day_split opts y m d r (hvalid r hrs).1 (hvalid r hrs).2).mpr ⟨hrm', hex⟩⟩

/-- C6 counterexample: an order whose `etvFactor` is absent contributes its
full `etv` (here 5) to its bucket's `totalAdjustedEtv`, not the claim's
`etv * (etvFactor ?? 0) = 0`. -/
theorem claim_c6_counterexample :
    ((getMonthlyBreakdown [orderJanNoFactor])[0]?).map MonthlyBreakdown.totalAdjustedEtv =
      some 5 ∧
    ([orderJanNoFactor].map fun o => o.etv * o.etvFactor.getD 0).sum = 0 ∧
    (5 : ℚ) ≠ 0 := by
  refine ⟨?_, by simp [orderJanNoFactor], by norm_num⟩
  have h0 : (getMonthlyBreakdown [orderJanNoFactor])[0]? = some
      { month := 1, orderCount := 1, totalEtv := 0 + orderJanNoFactor.etv
        totalAdjustedEtv := 0 + orderJanNoFactor.etv } := by
    unfold getMonthlyBreakdown
    rw [List.getElem?_map, List.getElem?_range (by omega : (0 : Nat) < 12)]
    rfl
  rw [h0]
  show some (0 + orderJanNoFactor.etv) = some 5
  norm_num [orderJanNoFactor]

/-- C6 (amended): `getMonthlyBreakdown` always returns exactly 12 buckets
(zero-filled for empty months); bucket `i` reports month `i + 1`, the count of
that month's orders, the sum of their `etv`, and an adjusted total summing
`etv * etvFactor` for orders with a factor and the full `etv` — that is,
`etv * (etvFactor ?? 1)`, not `etv * (etvFactor ?? 0)` — for orders without. -/
theorem claim_c6_amended (orders : List Order) :
    (getMonthlyBreakdown orders).length = 12 ∧
    ∀ i, i < 12 → (getMonthlyBreakdown orders)[i]? = some
      { month := i + 1
        orderCount := (orders.filter fun o => o.orderedAt.month == i + 1).length
        totalEtv := ((orders.filter fun o => o.orderedAt.month == i + 1).map Order.etv).sum
        totalAdjustedEtv := ((orders.filter fun o => o.orderedAt.month == i + 1).map
          fun o => o.etv * o.etvFactor.getD 1).sum } := by
  constructor
  · simp [getMonthlyBreakdown]
  · intro i hi
    unfold getMonthlyBreakdown
    rw [List.getElem?_map, List.getElem?_range hi]
    simp only [Option.map_some']
    refine congrArg some ?_
    have hmap : ∀ o : Order,
        (match o.etvFactor with | some f => o.etv * f | none => o.etv) =
          o.etv * o.etvFactor.getD 1 := by
      intro o
      cases o.etvFactor <;> simp
    simp only [MonthlyBreakdown.mk.injEq]
    refine ⟨trivial, trivial, ?_, ?_⟩
    · rw [foldl_add_map Order.etv, zero_add]
    · rw [foldl_add_map (fun o : Order =>
        match o.etvFactor with | some f => o.etv * f | none => o.etv), zero_add]
      exact congrArg List.sum (List.map_congr_left fun o _ => hmap o)

/-- C7: on a database at `user_version` below 2 with the v1 table, a failure-
free migration run yields exactly the v2 table — every row keeps all columns
other than the dropped boolean `cancelled` unchanged and reads NULL in the new
`cancelledAt` column — with the persisted version marker at 2 and nothing
logged; a database already at version 2 is left untouched. -/
theorem claim_c7_migration (io : Nat → Bool) (db : Db) (rows : List Row) :
    (db.table = Table.v1 rows → db.userVersion < 2 → (∀ i, io i = true) →
      migrate io db = (⟨2, Table.v2 (rows.map rowV1toV2)⟩, none) ∧
      ∀ r ∈ rows, (rowV1toV2 r).toRowBase = r.toRowBase ∧ (rowV1toV2 r).cancelledAt = none) ∧
    (2 ≤ db.userVersion → migrate io db = (db, none)) := by
  constructor
  · intro h1 h2 hio
    have htx : migrateTx io db = Except.ok ⟨2, Table.v2 (rows.map rowV1toV2)⟩ := by
      unfold migrateTx
      rw [hio 0, hio 1, hio 2, hio 3, hio 4, h1]
      rw [show rows.map rowV1toV2 =
          (rows.map Row.toRowBase).map (fun b => { toRowBase := b, cancelledAt := none }) from by
        rw [List.map_map]
        rfl]
      rfl
    refine ⟨?_, ?_⟩
    · unfold migrate
      rw [if_pos h2, htx]
    · intro r hr
      exact ⟨rfl, rfl⟩
  · intro h2
    unfold migrate
    rw [if_neg (by omega)]

/-- C8: when the database is at v1 and any step of the migration transaction
fails, the migrator leaves the database exactly in its pre-migration state
(same table, same version marker — no partial state) and logs the failure. -/
theorem claim_c8_rollback (io : Nat → Bool) (db : Db) (rows : List Row)
    (h1 : db.table = Table.v1 rows) (h2 : db.userVersion < 2)
    (hfail : io 0 = false ∨ io 1 = false ∨ io 2 = false ∨ io 3 = false ∨ io 4 = false) :
    (migrate io db).1 = db ∧ ((migrate io db).2).isSome = true := by
  have herr : ∀ d, migrateTx io db ≠ .ok d := by
    intro d hd
    unfold migrateTx at hd
    cases h0 : io 0 <;> cases hi1 : io 1 <;> cases hi2 : io 2 <;> cases hi3 : io 3 <;>
      cases hi4 : io 4 <;> simp_all [stepDrop, stepAdd]
  cases hmt : migrateTx io db with
  | ok dd => exact absurd hmt (herr dd)
  | error e =>
    unfold migrate
    rw [if_pos h2, hmt]
    exact ⟨rfl, rfl⟩

/-- C9: setting the ETV reason to the empty string stores NULL, so reading
the updated row back yields an absent `etvReason` (never the empty string),
while a non-empty string of at most 255 characters is stored and read back
verbatim. -/
theorem claim_c9_etvReason (store : List Row) (number : String) (s : String)
    (hne : s ≠ "") (hlen : s.length ≤ 255) :
    (∀ r ∈ setETVReasonForOrder store number (some ""), r.number = number →
      (toOrder r).etvReason = none) ∧
    (∀ r ∈ setETVReasonForOrder store number (some s), r.number = number →
      (toOrder r).etvReason = some s) := by
  constructor
  · intro r hr hnum
    rw [setETVReasonForOrder, List.mem_map] at hr
    obtain ⟨row, hrow, heq⟩ := hr
    by_cases hb : (row.number == number) = true
    · rw [if_pos hb] at heq
      rw [← heq]
      simp [toOrder]
    · rw [if_neg hb] at heq
      rw [← heq] at hnum
      exact absurd (beq_iff_eq.mpr hnum) hb
  · intro r hr hnum
    rw [setETVReasonForOrder, List.mem_map] at hr
    obtain ⟨row, hrow, heq⟩ := hr
    by_cases hb : (row.number == number) = true
    · rw [if_pos hb] at heq
      rw [← heq]
      simp [toOrder, hne]
    · rw [if_neg hb] at heq
      rw [← heq] at hnum
      exact absurd (beq_iff_eq.mpr hnum) hb

/-- C10: every order returned in row mode comes from a stored row via
`toOrder`; `toOrder` maps a NULL `deliveredAt` column to the epoch timestamp
(the value of `new Date(null)`), never to an absent field; consequently a row
with a NULL `deliveredAt` and a row actually delivered at the epoch yield
identical `Order` values. -/
theorem claim_c10_deliveredAt (store : List Row) (opts : GetOrdersOptions) (l : List Order)
    (h : getOrders store opts = .ok (.inl l)) :
    (∀ o ∈ l, ∃ r, r ∈ store ∧ o = toOrder r) ∧
    (∀ r : Row, r.deliveredAt = none → (toOrder r).deliveredAt = epochDateTime) ∧
    (∀ r : Row, toOrder { r with deliveredAt := none } =
      toOrder { r with deliveredAt := some epochDateTime }) := by
  refine ⟨?_, ?_, ?_⟩
  · intro o ho
    cases hb : computeBounds opts with
    | error e =>
      unfold getOrders at h
      rw [hb] at h
      exact absurd h (by simp)
    | ok trip =>
      obtain ⟨sd, ed, kw⟩ := trip
      have hleq := getOrders_rows_shape store opts sd ed kw l hb h
      rw [hleq, List.mem_map] at ho
      obtain ⟨r, hr, rfl⟩ := ho
      have hr2 := mem_applyLimitOffset _ _ _ _ hr
      rw [mem_sortByLE, List.mem_filter] at hr2
      exact ⟨r, hr2.1, rfl⟩
  · intro r hr
    simp [toOrder, hr]
  · intro r
    rfl

/-- C1 witness: concrete two-row v2 store, default options — the two result
sets are disjoint. -/
theorem claim_c1_witness : ¬(rowV2a ∈ [rowV2a] ∧ rowV2a ∈ [rowV2b]) :=
  (claim_c1_cancelled_partition [rowV2a, rowV2b] {} none none none [rowV2a] [rowV2b]
    rfl rfl rfl rfl rfl rfl).2.2 rowV2a

/-- C2 witness: a two-row store with one matching row — count 1 equals the
row-mode result length. -/
theorem claim_c2_witness : (1 : Nat) = [toOrder rowA].length :=
  claim_c2_count_eq_rows [rowA, rowB] {} 1 [toOrder rowA] rfl rfl rfl rfl rfl rfl

/-- C4 witness: sort/dir values do not disturb the count of a concrete store;
a positive offset forces the concrete count result to 0. -/
theorem claim_c4_witness : (1 : Nat) = [toOrder rowA].length ∧ (0 : Nat) = 0 :=
  ⟨(claim_c4_amended [rowA] {}).1 (some "etv") (some "asc") 1 [toOrder rowA] rfl rfl rfl rfl,
   (claim_c4_amended [rowA] { limit := some 5, offset := some 1 }).2 1 0 rfl (by norm_num) rfl⟩

/-- C5 witness: on a concrete store, a date-shaped search makes a
simultaneously supplied year irrelevant. -/
theorem claim_c5_witness :
    getOrders [rowA, rowB] { search := some "2024-03-05", year := some 2023 } =
      getOrders [rowA, rowB] { search := some "2024-03-05" } :=
  (claim_c5_search_day [rowA, rowB] { search := some "2024-03-05" } "2024-03-05"
    2024 3 5 [toOrder rowA] rfl rfl rfl (by decide) (by decide) (by decide) (by decide)
    (by decide) (by decide) rfl rfl rfl rfl).1 (some 2023)

/-- C6 witness: the amended characterization evaluated at bucket 0 of a
concrete one-order list. -/
theorem claim_c6_witness :
    (getMonthlyBreakdown [orderJanNoFactor])[0]? = some
      { month := 1
        orderCount := ([orderJanNoFactor].filter fun o => o.orderedAt.month == 1).length
        totalEtv := (([orderJanNoFactor].filter fun o => o.orderedAt.month == 1).map
          Order.etv).sum
        totalAdjustedEtv := (([orderJanNoFactor].filter fun o => o.orderedAt.month == 1).map
          fun o => o.etv * o.etvFactor.getD 1).sum } :=
  (claim_c6_amended [orderJanNoFactor]).2 0 (by omega)

/-- C7 witness: a concrete v1 database migrated with no failures. -/
theorem claim_c7_witness :
    migrate (fun _ => true) dbV1 = (⟨2, Table.v2 ([rowA, rowB].map rowV1toV2)⟩, none) :=
  ((claim_c7_migration (fun _ => true) dbV1 [rowA, rowB]).1 rfl (by decide) (fun _ => rfl)).1

/-- C8 witness: a concrete v1 database with every step failing is left
unchanged, with the failure logged. -/
theorem claim_c8_witness :
    (migrate (fun _ => false) dbV1).1 = dbV1 ∧
    ((migrate (fun _ => false) dbV1).2).isSome = true :=
  claim_c8_rollback (fun _ => false) dbV1 [rowA, rowB] rfl (by decide) (Or.inl rfl)

/-- C9 witness: on a concrete store, clearing via the empty string reads back
absent, and a non-empty reason reads back verbatim. -/
theorem claim_c9_witness :
    (toOrder rowA).etvReason = none ∧
    (toOrder { rowA with etvReason := some "x" }).etvReason = some "x" :=
  ⟨(claim_c9_etvReason [rowA] "111-1" "x" (by decide) (by decide)).1 rowA
     (List.mem_cons_self _ _) rfl,
   (claim_c9_etvReason [rowA] "111-1" "x" (by decide) (by decide)).2
     { rowA with etvReason := some "x" } (List.mem_cons_self _ _) rfl⟩

/-- C10 witness: a concrete row with a NULL `deliveredAt` reads back as the
epoch date. -/
theorem claim_c10_witness :
    (toOrder { rowA with deliveredAt := none }).deliveredAt = epochDateTime :=
  (claim_c10_deliveredAt [rowA] {} [toOrder rowA] rfl).2.1 { rowA with deliveredAt := none } rfl
